import Mathlib

/-!
Verification of the windrun statistics dashboard's derived-metrics layer.

The TypeScript source is shallowly embedded: JavaScript numbers are
modelled as `Int` (identifiers) and `ℚ` (statistics); `Math.sqrt` is
modelled as `Real.sqrt` on an exact embedding of the operands;
`undefined`/`null` become `Option`; truthiness tests on numbers are made
explicit.  Reference-data lookups (`getAbilityById`, `getHeroById` from
the module-level static catalog) are passed as an abstract environment,
since every verified function treats them as opaque key/value lookups.
-/

namespace Windrun

/-- A hero reference record (static catalog), as consumed by the resolvers:
only `englishName` and `picture` are read. -/
structure Hero where
  englishName : String
  picture : String
deriving Repr, DecidableEq

/-- An ability reference record, mirroring `src/types/ability.ts`:
`isUltimate : boolean | null`, `ownerHeroId : number | null`. -/
structure Ability where
  englishName : String
  shortName : String
  isUltimate : Option Bool
  ownerHeroId : Option Int
deriving Repr, DecidableEq

/-- The static reference-data lookups `getAbilityById` / `getHeroById`
imported from `../data`; a lookup miss is `none` (JS `undefined`). -/
structure Env where
  getAbilityById : Int → Option Ability
  getHeroById : Int → Option Hero

/-- JavaScript truthiness of a `number | undefined` value:
`undefined` and `0` are falsy. -/
def jsTruthyInt : Option Int → Bool
  | some x => x != 0
  | none => false

/-- JavaScript truthiness of a `number | null` value (`null` and `0` falsy). -/
def jsTruthyRat : Option ℚ → Bool
  | some x => x != 0
  | none => false

/-- Result record of `resolveAbility` (`src/utils/abilityHelpers.ts`).
Optional TS fields (`heroId?`, `heroPicture?`, `ownerHeroId?`,
`ownerHeroName?`) are `Option`; `shortName` and `isUltimate` are
non-optional in the TS interface. -/
structure ResolvedAbility where
  abilityId : Int
  abilityName : String
  shortName : String
  isUltimate : Bool
  isHeroAbility : Bool
  heroId : Option Int
  heroPicture : Option String
  ownerHeroId : Option Int
  ownerHeroName : Option String
deriving Repr, DecidableEq

/-- Embedding of `resolveAbility(abilityId, ownerHero?)` from
`src/utils/abilityHelpers.ts` lines 19-42.  Note the source computes
`ownerHeroId := isHeroAbility ? heroIdFromAbility : ownerHero`: for a
non-negative id the caller-supplied hint is used directly and the ability
record's own `ownerHeroId` is never consulted. -/
def resolveAbility (env : Env) (abilityId : Int) (ownerHero : Option Int) :
    ResolvedAbility :=
  let isHeroAbility : Bool := abilityId < 0
  let heroIdFromAbility : Option Int :=
    if isHeroAbility then some abilityId.natAbs else none
  let hero : Option Hero :=
    if jsTruthyInt heroIdFromAbility then env.getHeroById (heroIdFromAbility.getD 0)
    else none
  let ability : Option Ability :=
    if !isHeroAbility then env.getAbilityById abilityId else none
  let ownerHeroId : Option Int :=
    if isHeroAbility then heroIdFromAbility else ownerHero
  let ownerHeroData : Option Hero :=
    if jsTruthyInt ownerHeroId then env.getHeroById (ownerHeroId.getD 0) else none
  { abilityId := abilityId
    abilityName :=
      if isHeroAbility then
        (hero.map Hero.englishName).getD ("Hero #" ++ toString abilityId.natAbs)
      else
        (ability.map Ability.englishName).getD ("Ability #" ++ toString abilityId)
    shortName := (ability.map Ability.shortName).getD ""
    isUltimate := (ability.bind Ability.isUltimate).getD false
    isHeroAbility := isHeroAbility
    heroId := heroIdFromAbility
    heroPicture := hero.map Hero.picture
    ownerHeroId := ownerHeroId
    ownerHeroName := ownerHeroData.map Hero.englishName }

/-- Result record of the page-local `resolveAbilityInfo` helper
(`src/pages/HeroDetail.tsx` lines 445-463; an identical copy lives in the
ability-detail page).  Unlike `ResolvedAbility` it has no
`ownerHeroName`. -/
structure ResolvedInfo where
  abilityId : Int
  abilityName : String
  shortName : String
  isUltimate : Bool
  isHeroAbility : Bool
  heroId : Option Int
  heroPicture : Option String
  ownerHeroId : Option Int
deriving Repr, DecidableEq

/-- Embedding of `resolveAbilityInfo(abilityId)`: takes no owner hint and
derives `ownerHeroId` from the ability record (`ability?.ownerHeroId`,
collapsing `null`/`undefined` to `none`). -/
def resolveAbilityInfo (env : Env) (abilityId : Int) : ResolvedInfo :=
  let isHeroAbility : Bool := abilityId < 0
  let heroIdFromAbility : Option Int :=
    if isHeroAbility then some abilityId.natAbs else none
  let hero : Option Hero :=
    if jsTruthyInt heroIdFromAbility then env.getHeroById (heroIdFromAbility.getD 0)
    else none
  let ability : Option Ability :=
    if !isHeroAbility then env.getAbilityById abilityId else none
  { abilityId := abilityId
    abilityName :=
      if isHeroAbility then
        (hero.map Hero.englishName).getD ("Hero #" ++ toString abilityId.natAbs)
      else
        (ability.map Ability.englishName).getD ("Ability #" ++ toString abilityId)
    shortName := (ability.map Ability.shortName).getD ""
    isUltimate := (ability.bind Ability.isUltimate).getD false
    isHeroAbility := isHeroAbility
    heroId := heroIdFromAbility
    heroPicture := hero.map Hero.picture
    ownerHeroId :=
      if isHeroAbility then heroIdFromAbility
      else ability.bind Ability.ownerHeroId }

/-- The empty reference environment: every lookup misses. -/
def envEmpty : Env where
  getAbilityById := fun _ => none
  getHeroById := fun _ => none

/-- Environment in which ability 1 exists and records owning hero 5. -/
def envOwned : Env where
  getAbilityById := fun id =>
    if id == 1 then
      some { englishName := "Acid Spray", shortName := "acid_spray",
             isUltimate := some false, ownerHeroId := some 5 }
    else none
  getHeroById := fun id =>
    if id == 5 then some { englishName := "Alchemist", picture := "alch" }
    else none

/-! ### Resolver helper lemmas -/

lemma resolveAbility_ownerHeroId_eq (env : Env) (id : Int) (hint : Option Int) :
    (resolveAbility env id hint).ownerHeroId =
      (if id < 0 then some (id.natAbs : Int) else hint) := by
  unfold resolveAbility
  by_cases h : id < 0 <;> simp [h]

lemma resolveAbilityInfo_ownerHeroId_eq (env : Env) (id : Int) :
    (resolveAbilityInfo env id).ownerHeroId =
      (if id < 0 then some (id.natAbs : Int)
       else (env.getAbilityById id).bind Ability.ownerHeroId) := by
  unfold resolveAbilityInfo
  by_cases h : id < 0 <;> simp [h]

lemma resolveAbility_negId (env : Env) (h : Int) (hint : Option Int) (hpos : 0 < h) :
    (resolveAbility env (-h) hint).heroId = some h ∧
    (resolveAbility env (-h) hint).ownerHeroId = some h ∧
    (resolveAbility env (-h) hint).abilityName =
      ((env.getHeroById h).map Hero.englishName).getD ("Hero #" ++ toString h.natAbs) := by
  have hneg : (-h : Int) < 0 := by omega
  have habs : ((-h : Int).natAbs : Int) = h := by omega
  have hne : ((-h : Int).natAbs : Int) ≠ 0 := by omega
  have habs' : (-h : Int).natAbs = h.natAbs := by omega
  have h0 : ¬h = 0 := by omega
  have habsh : |h| = h := abs_of_pos hpos
  unfold resolveAbility
  simp [hneg, jsTruthyInt, hne, habs, habs', h0, habsh, le_of_lt hpos]

lemma resolveAbilityInfo_negId (env : Env) (h : Int) (hpos : 0 < h) :
    (resolveAbilityInfo env (-h)).heroId = some h ∧
    (resolveAbilityInfo env (-h)).ownerHeroId = some h ∧
    (resolveAbilityInfo env (-h)).abilityName =
      ((env.getHeroById h).map Hero.englishName).getD ("Hero #" ++ toString h.natAbs) := by
  have hneg : (-h : Int) < 0 := by omega
  have habs : ((-h : Int).natAbs : Int) = h := by omega
  have hne : ((-h : Int).natAbs : Int) ≠ 0 := by omega
  have habs' : (-h : Int).natAbs = h.natAbs := by omega
  have h0 : ¬h = 0 := by omega
  have habsh : |h| = h := abs_of_pos hpos
  unfold resolveAbilityInfo
  simp [hneg, jsTruthyInt, hne, habs, habs', h0, habsh, le_of_lt hpos]

/-! ### Resolver claims -/

/-- C2 counterexample: ability 1's record exists and records owner hero 5,
yet `resolveAbility` with hint 7 returns `ownerHeroId = 7` — the hint
overrides the recorded owner, refuting the claimed record-first rule. -/
theorem resolveAbility_hint_overrides_record :
    (envOwned.getAbilityById 1).bind Ability.ownerHeroId = some 5 ∧
    (resolveAbility envOwned 1 (some 7)).ownerHeroId = some 7 ∧
    (resolveAbility envOwned 1 none).ownerHeroId = none := by
  refine ⟨rfl, rfl, rfl⟩

/-- C2 (amended): for a negative id `ownerHeroId = |id|`; for a
non-negative id `resolveAbility` returns the caller-supplied hint
unchanged, never the ability record's recorded owner — the record's owner
is consulted only by the separate `resolveAbilityInfo` helper (which takes
no hint). -/
theorem resolveAbility_ownerHeroId_rule (env : Env) (id : Int) (hint : Option Int) :
    (resolveAbility env id hint).ownerHeroId =
      (if id < 0 then some (id.natAbs : Int) else hint) ∧
    (resolveAbilityInfo env id).ownerHeroId =
      (if id < 0 then some (id.natAbs : Int)
       else (env.getAbilityById id).bind Ability.ownerHeroId) :=
  ⟨resolveAbility_ownerHeroId_eq env id hint, resolveAbilityInfo_ownerHeroId_eq env id⟩

/-- C3 counterexample: for ability 1 (recorded owner 5) resolved with no
hint, the shared resolver yields `ownerHeroId = none` while the page-local
resolver yields `some 5` — the two code paths disagree. -/
theorem resolver_paths_disagree :
    (resolveAbility envOwned 1 none).ownerHeroId = none ∧
    (resolveAbilityInfo envOwned 1).ownerHeroId = some 5 := by
  refine ⟨rfl, rfl⟩

/-- C3 (amended): the two resolvers agree on `ownerHeroId` exactly when
the id is negative or the caller-supplied hint coincides with the ability
record's recorded owner; restricted to hero-body ids the round-trip does
hold: for every hero id `h > 0` both resolvers map `-h` to `heroId = h`,
`ownerHeroId = h`, and a display name drawn from the same `getHeroById h`
lookup that resolves `h` as a hero. -/
theorem resolver_ownership_consistency (env : Env) (id : Int) (hint : Option Int) :
    ((resolveAbility env id hint).ownerHeroId =
        (resolveAbilityInfo env id).ownerHeroId ↔
      (id < 0 ∨ hint = (env.getAbilityById id).bind Ability.ownerHeroId)) ∧
    (∀ h : Int, 0 < h →
      (resolveAbility env (-h) hint).heroId = some h ∧
      (resolveAbilityInfo env (-h)).heroId = some h ∧
      (resolveAbility env (-h) hint).ownerHeroId = some h ∧
      (resolveAbilityInfo env (-h)).ownerHeroId = some h ∧
      (resolveAbility env (-h) hint).abilityName =
        ((env.getHeroById h).map Hero.englishName).getD ("Hero #" ++ toString h.natAbs) ∧
      (resolveAbilityInfo env (-h)).abilityName =
        ((env.getHeroById h).map Hero.englishName).getD ("Hero #" ++ toString h.natAbs)) := by
  constructor
  · rw [resolveAbility_ownerHeroId_eq env id hint,
        resolveAbilityInfo_ownerHeroId_eq env id]
    by_cases h : id < 0 <;> simp [h]
  · intro h hpos
    obtain ⟨a1, a2, a3⟩ := resolveAbility_negId env h hint hpos
    obtain ⟨b1, b2, b3⟩ := resolveAbilityInfo_negId env h hpos
    exact ⟨a1, b1, a2, b2, a3, b3⟩

/-- C3 witness: at `envOwned` (ability 1 owned by hero 5) with hint 5 the
agreement criterion is satisfied, and the hero-body round-trip instantiated
at hero 5 sends `-5` back to `heroId = 5` on both code paths. -/
theorem resolver_ownership_consistency_witness :
    (resolveAbility envOwned 1 (some 5)).ownerHeroId =
      (resolveAbilityInfo envOwned 1).ownerHeroId ∧
    (resolveAbility envOwned (-5) (some 5)).heroId = some 5 ∧
    (resolveAbilityInfo envOwned (-5)).heroId = some 5 :=
  ⟨(resolver_ownership_consistency envOwned 1 (some 5)).1.mpr (Or.inr rfl),
   ((resolver_ownership_consistency envOwned 1 (some 5)).2 5 (by decide)).1,
   ((resolver_ownership_consistency envOwned 1 (some 5)).2 5 (by decide)).2.1⟩

/-- C7: `resolveAbility` is a total function of the id (the embedding is a
plain Lean `def` defined for every integer, mirroring the throw-free
source); unconditionally, `isHeroAbility` is true exactly for negative ids
and `heroId = |id|` for negative ids (absent otherwise); and when the
reference lookup relevant to the taken branch misses, the name is the
placeholder built from the raw id. -/
theorem resolveAbility_total_sign_placeholder (env : Env) (id : Int) (hint : Option Int) :
    (resolveAbility env id hint).isHeroAbility = decide (id < 0) ∧
    (resolveAbility env id hint).heroId =
      (if id < 0 then some (id.natAbs : Int) else none) ∧
    ((if id < 0 then env.getHeroById (id.natAbs : Int) = none
      else env.getAbilityById id = none) →
      (resolveAbility env id hint).abilityName =
        (if id < 0 then "Hero #" ++ toString id.natAbs
         else "Ability #" ++ toString id)) := by
  by_cases h : id < 0
  · refine ⟨?_, ?_, ?_⟩
    · unfold resolveAbility
      simp [h]
    · unfold resolveAbility
      simp [h]
    · intro hmiss
      rw [if_pos h] at hmiss
      have hm : env.getHeroById |id| = none := by simpa using hmiss
      have hne : ((id.natAbs : Int)) ≠ 0 := by omega
      have h0 : ¬id = 0 := by omega
      unfold resolveAbility
      simp [h, jsTruthyInt, hne, h0, hm]
  · refine ⟨?_, ?_, ?_⟩
    · unfold resolveAbility
      simp [h]
    · unfold resolveAbility
      simp [h]
    · intro hmiss
      rw [if_neg h] at hmiss
      unfold resolveAbility
      simp [h, hmiss]

/-- C7 witness: at the empty environment and id `-3`, `isHeroAbility` is
true, `heroId = 3`, the hero lookup misses and the name is the placeholder
`Hero #3`. -/
theorem resolveAbility_total_sign_placeholder_witness :
    (resolveAbility envEmpty (-3) none).isHeroAbility = decide ((-3 : Int) < 0) ∧
    (resolveAbility envEmpty (-3) none).heroId =
      (if (-3 : Int) < 0 then some (((-3 : Int).natAbs : Int)) else none) ∧
    (resolveAbility envEmpty (-3) none).abilityName =
      (if (-3 : Int) < 0 then "Hero #" ++ toString (-3 : Int).natAbs
       else "Ability #" ++ toString (-3 : Int)) :=
  ⟨(resolveAbility_total_sign_placeholder envEmpty (-3) none).1,
   (resolveAbility_total_sign_placeholder envEmpty (-3) none).2.1,
   (resolveAbility_total_sign_placeholder envEmpty (-3) none).2.2 (by decide)⟩

/-- C8 counterexample: for the hero-body id `-1` the ability-only fields
are not absent — the source defaults them (`?? ''`, `?? false`), so
`shortName` is the empty string and `isUltimate` is `false`. -/
theorem heroBody_ability_fields_defaulted :
    (resolveAbility envEmpty (-1) none).shortName = "" ∧
    (resolveAbility envEmpty (-1) none).isUltimate = false := by
  refine ⟨rfl, rfl⟩

/-- C8 (amended): for a non-negative id the hero-body-only fields
(`heroId`, `heroPicture`) are absent (`undefined`), so callers can
distinguish "no data" from a zero value; but for a negative (hero-body) id
the ability-only fields are not absent: `shortName` is defaulted to the
empty string and `isUltimate` to `false`. -/
theorem resolveAbility_branch_fields (env : Env) (id : Int) (hint : Option Int) :
    if id < 0 then
      (resolveAbility env id hint).shortName = "" ∧
      (resolveAbility env id hint).isUltimate = false ∧
      (resolveAbility env id hint).heroId = some (id.natAbs : Int)
    else
      (resolveAbility env id hint).heroId = none ∧
      (resolveAbility env id hint).heroPicture = none := by
  by_cases h : id < 0 <;> · unfold resolveAbility
                            simp [h, jsTruthyInt]

/-! ### HTTP retry policy (`src/api/queries.ts`, `src/api/client.ts`) -/

/-- An error reaching the retry policy: either an `ApiError` thrown by
`apiFetch` (HTTP status plus optional parsed `Retry-After` seconds) or any
other `Error`. -/
inductive QueryError where
  | apiError (status : Nat) (retryAfter : Option ℚ) (message : String)
  | other (message : String)
deriving Repr, DecidableEq

/-- Embedding of `retryOn503(failureCount, error)`:
`error instanceof ApiError && error.status === 503` allows up to 10
failures, anything else up to 3. -/
def retryOn503 (failureCount : Nat) (error : QueryError) : Bool :=
  match error with
  | .apiError status _ _ =>
      if status == 503 then failureCount < 10 else failureCount < 3
  | .other _ => failureCount < 3

/-- Embedding of `retryDelay(failureCount, error)`: a truthy
`error.retryAfter` (present and non-zero) yields `retryAfter * 1000`
milliseconds, otherwise `min(1000 * 2 ** failureCount, 30000)`. -/
def retryDelay (failureCount : Nat) (error : QueryError) : ℚ :=
  match error with
  | .apiError _ retryAfter _ =>
      if jsTruthyRat retryAfter then retryAfter.getD 0 * 1000
      else min (1000 * 2 ^ failureCount) 30000
  | .other _ => min (1000 * 2 ^ failureCount) 30000

/-- Whether an error is an `ApiError` with status 503. -/
def is503 : QueryError → Bool
  | .apiError status _ _ => status == 503
  | .other _ => false

/-- The `Retry-After` seconds carried by an error, if any. -/
def retryAfterOf : QueryError → Option ℚ
  | .apiError _ retryAfter _ => retryAfter
  | .other _ => none

/-- C9: a retry is permitted exactly when the error is a 503 `ApiError`
and the failure count is below 10, or the error is anything else and the
failure count is below 3; the delay is the server-supplied `Retry-After`
converted to milliseconds when present and non-zero, and otherwise
`min(1000 * 2 ^ failureCount, 30000)` milliseconds. -/
theorem retry_policy (failureCount : Nat) (error : QueryError) :
    (retryOn503 failureCount error = true ↔
      ((is503 error = true ∧ failureCount < 10) ∨
       (is503 error = false ∧ failureCount < 3))) ∧
    retryDelay failureCount error =
      (match retryAfterOf error with
       | some ra => if ra ≠ 0 then ra * 1000
                    else min (1000 * 2 ^ failureCount) 30000
       | none => min (1000 * 2 ^ failureCount) 30000) := by
  obtain st | msg := error
  · constructor
    · by_cases h : st = 503 <;>
        simp [retryOn503, is503, h]
    · rename_i ra msg
      obtain _ | ra := ra
      · simp [retryDelay, retryAfterOf, jsTruthyRat]
      · by_cases h : ra = 0 <;>
          simp [retryDelay, retryAfterOf, jsTruthyRat, h]
  · constructor
    · simp [retryOn503, is503]
    · simp [retryDelay, retryAfterOf]

/-! ### Synergy calculator
(inline in `statsData`, `src/pages/HeroDetail.tsx` lines 660-665, and
identically in `pairsData` of the ability-detail page). -/

/-- Embedding of the inline synergy computation: `null` unless both
individual win rates are non-null and strictly positive, else
`pairWinRate - Math.sqrt(winRateOne * winRateTwo)`.  `Math.sqrt` is
modelled as `Real.sqrt` on the exact rational operands, so the result
lives in `Option ℝ`. -/
noncomputable def synergyOf (winRateOne winRateTwo : Option ℚ) (pairWinRate : ℚ) :
    Option ℝ :=
  match winRateOne, winRateTwo with
  | some w1, some w2 =>
      if 0 < w1 ∧ 0 < w2 then
        some ((pairWinRate : ℝ) - Real.sqrt ((w1 : ℝ) * (w2 : ℝ)))
      else none
  | _, _ => none

/-- C4: synergy is `null` exactly when an individual win rate is missing
or non-positive; when defined it is the pair win rate minus the geometric
mean of the two individual win rates; `synergy(60,60,60) = 0` and
`synergy(50,50,55) = 5`, and a `null` result is distinct from a zero
result. -/
theorem synergy_rule (winRateOne winRateTwo : Option ℚ) (pairWinRate : ℚ) :
    (synergyOf winRateOne winRateTwo pairWinRate = none ↔
      (winRateOne = none ∨ winRateTwo = none ∨
       (∃ w, winRateOne = some w ∧ w ≤ 0) ∨
       (∃ w, winRateTwo = some w ∧ w ≤ 0))) ∧
    (∀ w1 w2 : ℚ, winRateOne = some w1 → winRateTwo = some w2 →
      0 < w1 → 0 < w2 →
      synergyOf winRateOne winRateTwo pairWinRate =
        some ((pairWinRate : ℝ) - Real.sqrt ((w1 : ℝ) * (w2 : ℝ)))) ∧
    synergyOf (some 60) (some 60) 60 = some 0 ∧
    synergyOf (some 50) (some 50) 55 = some 5 ∧
    synergyOf (some 60) (some 60) 60 ≠ synergyOf none (some 60) 60 := by
  have sqrt_sq : ∀ q : ℚ, 0 ≤ q → Real.sqrt ((q : ℝ) * (q : ℝ)) = (q : ℝ) := by
    intro q hq
    rw [show ((q : ℝ) * (q : ℝ)) = (q : ℝ) ^ 2 by ring]
    exact Real.sqrt_sq (by exact_mod_cast hq)
  refine ⟨?_, ?_, ?_, ?_, ?_⟩
  · obtain _ | w1 := winRateOne <;> obtain _ | w2 := winRateTwo
    · simp [synergyOf]
    · simp [synergyOf]
    · simp [synergyOf]
    · have hlhs : (synergyOf (some w1) (some w2) pairWinRate = none) ↔
          ¬(0 < w1 ∧ 0 < w2) := by
        simp only [synergyOf]
        split_ifs with hc <;> simp [hc]
      rw [hlhs, not_and_or, not_lt, not_lt]
      simp
  · rintro w1 w2 rfl rfl h1 h2
    simp [synergyOf, h1, h2]
  · have h := sqrt_sq 60 (by norm_num)
    simp only [synergyOf]
    rw [if_pos (by norm_num : (0 : ℚ) < 60 ∧ (0 : ℚ) < 60), h]
    norm_num
  · have h := sqrt_sq 50 (by norm_num)
    simp only [synergyOf]
    rw [if_pos (by norm_num : (0 : ℚ) < 50 ∧ (0 : ℚ) < 50), h]
    norm_num
  · simp only [synergyOf]
    rw [if_pos (by norm_num : (0 : ℚ) < 60 ∧ (0 : ℚ) < 60)]
    simp

/-- C4 witness: the defined-case equation applied at
`winRateOne = winRateTwo = 60`, `pairWinRate = 60`. -/
theorem synergy_rule_witness :
    synergyOf (some 60) (some 60) 60 =
      some ((60 : ℚ) - Real.sqrt (((60 : ℚ) : ℝ) * ((60 : ℚ) : ℝ))) :=
  (synergy_rule (some 60) (some 60) 60).2.1 60 60 rfl rfl
    (by norm_num) (by norm_num)

/-! ### Pick/win-rate curve builder
(`chartData` in the ability-detail page, lines 223-276). -/

/-- One sparse per-pick-position row from the API
(`singleAbility.picks`). -/
structure PickRow where
  pick : Int
  total : ℚ
  wins : ℚ
  winrate : ℚ
  wilsonLower : ℚ
  wilsonUpper : ℚ
deriving Repr, DecidableEq

/-- One dense chart point produced per position 1..40. -/
structure CurvePoint where
  pick : Nat
  pickRate : ℚ
  cumulativePickRate : ℚ
  winrate : ℚ
  cumulativeWinrate : ℚ
  wilsonLower : ℚ
  wilsonUpper : ℚ
  count : ℚ
deriving Repr, DecidableEq

/-- `picks.reduce((sum, p) => sum + p.total, 0)` — the grand total over
all rows, whatever their positions. -/
def grandTotal (picks : List PickRow) : ℚ :=
  picks.foldl (fun sum p => sum + p.total) 0

/-- The loop body of `chartData`: `n` remaining iterations starting at
position `i`, threading the three accumulators (`cumulativeWins`,
`cumulativeTotal`, `cumulativePicks`) exactly as the source mutates them.
`picks.find(p => p.pick === i)` is the first matching row. -/
def buildCurveGo (picks : List PickRow) (total : ℚ) :
    Nat → Nat → ℚ → ℚ → ℚ → List CurvePoint
  | 0, _, _, _, _ => []
  | n + 1, i, cumulativeWins, cumulativeTotal, cumulativePicks =>
    let row := picks.find? (fun p => p.pick == (i : Int))
    let cumulativeWins' :=
      match row with | some r => cumulativeWins + r.wins | none => cumulativeWins
    let cumulativeTotal' :=
      match row with | some r => cumulativeTotal + r.total | none => cumulativeTotal
    let cumulativePicks' :=
      match row with | some r => cumulativePicks + r.total | none => cumulativePicks
    { pick := i
      pickRate := match row with | some r => 100 * r.total / total | none => 0
      cumulativePickRate :=
        if 0 < total then cumulativePicks' / total * 100 else 0
      winrate := match row with | some r => r.winrate * 100 | none => 50
      cumulativeWinrate :=
        if 0 < cumulativeTotal' then cumulativeWins' / cumulativeTotal' * 100 else 50
      wilsonLower := match row with | some r => r.wilsonLower * 100 | none => 0
      wilsonUpper := match row with | some r => r.wilsonUpper * 100 | none => 100
      count := match row with | some r => r.total | none => 0 } ::
      buildCurveGo picks total n (i + 1) cumulativeWins' cumulativeTotal' cumulativePicks'

/-- Embedding of `chartData`: the dense 40-point series for positions
1..40. -/
def chartData (picks : List PickRow) : List CurvePoint :=
  buildCurveGo picks (grandTotal picks) 40 1 0 0 0

/-- The first row at position `i`, if any (`picks.find(p => p.pick === i)`). -/
def rowAt (picks : List PickRow) (i : Nat) : Option PickRow :=
  picks.find? (fun p => p.pick == (i : Int))

/-- Closed form of the wins accumulator after processing positions
`1..i`. -/
def cumWins (picks : List PickRow) : Nat → ℚ
  | 0 => 0
  | i + 1 =>
    cumWins picks i + (match rowAt picks (i + 1) with | some r => r.wins | none => 0)

/-- Closed form of the totals accumulator after processing positions
`1..i` (the source's `cumulativeTotal` and `cumulativePicks` both add
`row.total`, so a single closed form serves both). -/
def cumTotal (picks : List PickRow) : Nat → ℚ
  | 0 => 0
  | i + 1 =>
    cumTotal picks i + (match rowAt picks (i + 1) with | some r => r.total | none => 0)

/-- The spec's description of the chart point at position `i`: pick rate
`100·total/grandTotal` (0 with no row), win rate from the row (50 with no
row), Wilson bounds from the row ([0,100] with no row), cumulative win
rate = cumulative wins over cumulative total (50 while that total is 0). -/
def curvePointSpec (picks : List PickRow) (i : Nat) : CurvePoint :=
  let total := grandTotal picks
  { pick := i
    pickRate := match rowAt picks i with | some r => 100 * r.total / total | none => 0
    cumulativePickRate := if 0 < total then cumTotal picks i / total * 100 else 0
    winrate := match rowAt picks i with | some r => r.winrate * 100 | none => 50
    cumulativeWinrate :=
      if 0 < cumTotal picks i then cumWins picks i / cumTotal picks i * 100 else 50
    wilsonLower := match rowAt picks i with | some r => r.wilsonLower * 100 | none => 0
    wilsonUpper := match rowAt picks i with | some r => r.wilsonUpper * 100 | none => 100
    count := match rowAt picks i with | some r => r.total | none => 0 }

lemma buildCurveGo_eq_map (picks : List PickRow) (n : Nat) :
    ∀ i : Nat,
      buildCurveGo picks (grandTotal picks) n (i + 1)
          (cumWins picks i) (cumTotal picks i) (cumTotal picks i) =
        (List.range' (i + 1) n).map (curvePointSpec picks) := by
  induction n with
  | zero => intro i; rfl
  | succ n ih =>
    intro i
    rw [List.range'_succ, List.map_cons]
    show _ = curvePointSpec picks (i + 1) :: (List.range' (i + 2) n).map (curvePointSpec picks)
    rw [buildCurveGo]
    have hw : cumWins picks i +
        (match rowAt picks (i + 1) with | some r => r.wins | none => 0) =
        cumWins picks (i + 1) := rfl
    have ht : cumTotal picks i +
        (match rowAt picks (i + 1) with | some r => r.total | none => 0) =
        cumTotal picks (i + 1) := rfl
    cases hrow : rowAt picks (i + 1) with
    | none =>
      simp only [rowAt] at hrow
      simp only [hrow]
      rw [show cumWins picks i = cumWins picks (i + 1) by rw [cumWins, rowAt, hrow]; ring,
          show cumTotal picks i = cumTotal picks (i + 1) by rw [cumTotal, rowAt, hrow]; ring]
      rw [ih (i + 1)]
      simp only [curvePointSpec, rowAt, hrow]
    | some r =>
      simp only [rowAt] at hrow
      simp only [hrow]
      rw [show cumWins picks i + r.wins = cumWins picks (i + 1) by
            rw [cumWins, rowAt, hrow],
          show cumTotal picks i + r.total = cumTotal picks (i + 1) by
            rw [cumTotal, rowAt, hrow]]
      rw [ih (i + 1)]
      simp only [curvePointSpec, rowAt, hrow]

/-- The single-row example input from the spec:
`{pick:1, total:10, wins:6, winrate:0.6, wilsonLower:0.4, wilsonUpper:0.8}`. -/
def examplePicks : List PickRow :=
  [{ pick := 1, total := 10, wins := 6, winrate := 3/5,
     wilsonLower := 2/5, wilsonUpper := 4/5 }]

lemma rowAt_examplePicks_one :
    rowAt examplePicks 1 =
      some { pick := 1, total := 10, wins := 6, winrate := 3/5,
             wilsonLower := 2/5, wilsonUpper := 4/5 } := rfl

lemma rowAt_examplePicks_later (i : Nat) : rowAt examplePicks (i + 2) = none := by
  simp only [rowAt, examplePicks]
  rw [List.find?_cons_of_neg, List.find?_nil]
  simp only [beq_iff_eq]
  show ¬((1 : Int) = ((i + 2 : Nat) : Int))
  omega

lemma grandTotal_examplePicks : grandTotal examplePicks = 10 := by
  simp [grandTotal, examplePicks]

lemma cumTotal_examplePicks (i : Nat) : cumTotal examplePicks (i + 1) = 10 := by
  induction i with
  | zero =>
    show cumTotal examplePicks 1 = 10
    rw [cumTotal, cumTotal, rowAt_examplePicks_one]
    norm_num
  | succ n ih =>
    rw [cumTotal, rowAt_examplePicks_later]
    rw [ih]
    simp

/-- C5: the curve builder produces, for every sparse input, exactly the
dense series of spec points for positions 1..40 (empty position ⇒ pick
rate 0, win rate 50, Wilson bounds [0,100]; occupied position ⇒ pick rate
`100·total/grandTotal` and the row's win rate and bounds; cumulative win
rate = cumulative wins / cumulative total, 50 while that total is 0); on
the single-row example, position 1 has pick rate 100 and win rate 60,
position 2 has pick rate 0 and win rate 50, and the cumulative pick rate
at position 40 is 100. -/
theorem chartData_matches_spec :
    (∀ picks : List PickRow,
      chartData picks = (List.range' 1 40).map (curvePointSpec picks)) ∧
    ((chartData examplePicks)[0]?).map CurvePoint.pickRate = some 100 ∧
    ((chartData examplePicks)[0]?).map CurvePoint.winrate = some 60 ∧
    ((chartData examplePicks)[1]?).map CurvePoint.pickRate = some 0 ∧
    ((chartData examplePicks)[1]?).map CurvePoint.winrate = some 50 ∧
    ((chartData examplePicks)[39]?).map CurvePoint.cumulativePickRate = some 100 := by
  have hmap : ∀ picks : List PickRow,
      chartData picks = (List.range' 1 40).map (curvePointSpec picks) :=
    fun picks => buildCurveGo_eq_map picks 40 0
  have hget : ∀ k : Nat, k < 40 →
      (chartData examplePicks)[k]? = some (curvePointSpec examplePicks (1 + k)) := by
    intro k hk
    rw [hmap examplePicks, List.getElem?_map, List.getElem?_range' 1 1 hk]
    simp
  refine ⟨hmap, ?_, ?_, ?_, ?_, ?_⟩
  · rw [hget 0 (by norm_num)]
    norm_num [curvePointSpec, rowAt_examplePicks_one, grandTotal_examplePicks]
  · rw [hget 0 (by norm_num)]
    norm_num [curvePointSpec, rowAt_examplePicks_one]
  · rw [hget 1 (by norm_num)]
    norm_num [curvePointSpec, rowAt_examplePicks_later 0]
  · rw [hget 1 (by norm_num)]
    norm_num [curvePointSpec, rowAt_examplePicks_later 0]
  · rw [hget 39 (by norm_num)]
    have h40 : cumTotal examplePicks 40 = 10 := cumTotal_examplePicks 39
    norm_num [curvePointSpec, grandTotal_examplePicks, h40]

/-! ### Rating distribution estimator
(leaderboard page: `computeQuartile` / `chartMeanRating`). -/

/-- One `(rating bucket start, player count)` entry of `distributionData`
(already sorted ascending by the page). -/
structure RatingBucket where
  rating : ℚ
  count : ℚ
deriving Repr, DecidableEq

/-- One entry of `cumulativeData`: the bucket plus its running cumulative
count (the page also carries a percentile field, which the quartile code
never reads). -/
structure CumBucket where
  rating : ℚ
  count : ℚ
  cumulative : ℚ
deriving Repr, DecidableEq

/-- The fixed bin width (`classWidth = 25`). -/
def classWidth : ℚ := 25

def mkCumulativeGo (acc : ℚ) : List RatingBucket → List CumBucket
  | [] => []
  | b :: rest =>
    { rating := b.rating, count := b.count, cumulative := acc + b.count } ::
      mkCumulativeGo (acc + b.count) rest

/-- Embedding of the `cumulativeData` memo: running cumulative counts over
`distributionData`. -/
def cumulativeData (dist : List RatingBucket) : List CumBucket :=
  mkCumulativeGo 0 dist

/-- The scan inside `computeQuartile`: walk the cumulative array keeping
the previous bucket's cumulative (`CF_prev`, 0 for the first bucket);
return at the first bucket whose cumulative is `≥ position`. -/
def computeQuartileGo (position cfPrev : ℚ) : List CumBucket → Option ℚ
  | [] => none
  | b :: rest =>
    if position ≤ b.cumulative then
      some (if 0 < b.count then
              b.rating + (position - cfPrev) / b.count * classWidth
            else b.rating)
    else computeQuartileGo position b.cumulative rest

/-- Embedding of `computeQuartile(position)`: linear interpolation inside
the first bucket whose cumulative count reaches `position`; the bucket
start unmodified when its count is 0; the last bucket's rating (or
`minRating` on an empty array) when the scan is exhausted. -/
def computeQuartile (data : List CumBucket) (minRating position : ℚ) : ℚ :=
  match computeQuartileGo position 0 data with
  | some r => r
  | none => ((data.getLast?).map CumBucket.rating).getD minRating

/-- `totalPlayers`: the sum of all bucket counts. -/
def totalPlayers (dist : List RatingBucket) : ℚ :=
  dist.foldl (fun sum d => sum + d.count) 0

/-- Embedding of `chartMeanRating`: the count-weighted mean of bucket
midpoints (`rating + classWidth / 2`). -/
def chartMeanRating (dist : List RatingBucket) : ℚ :=
  (dist.foldl (fun sum d => sum + (d.rating + classWidth / 2) * d.count) 0) /
    totalPlayers dist

/-- Spec-side quantile scan, phrased as the claim words it: walk the
raw buckets with an explicit running prefix sum; stop at the first bucket
whose cumulative count reaches `p`. -/
def quantileSpecGo (p acc : ℚ) : List RatingBucket → Option ℚ
  | [] => none
  | b :: rest =>
    if p ≤ acc + b.count then
      some (if 0 < b.count then b.rating + (p - acc) / b.count * 25 else b.rating)
    else quantileSpecGo p (acc + b.count) rest

/-- Spec-side quantile: scan result, falling back to the last bucket's
start (or `minRating` for an empty list). -/
def quantileSpec (dist : List RatingBucket) (minRating p : ℚ) : ℚ :=
  (quantileSpecGo p 0 dist).getD (((dist.getLast?).map RatingBucket.rating).getD minRating)

lemma computeQuartileGo_eq_spec (p : ℚ) :
    ∀ (dist : List RatingBucket) (acc : ℚ),
      computeQuartileGo p acc (mkCumulativeGo acc dist) = quantileSpecGo p acc dist := by
  intro dist
  induction dist with
  | nil => intro acc; rfl
  | cons b rest ih =>
    intro acc
    rw [mkCumulativeGo, computeQuartileGo, quantileSpecGo]
    by_cases h : p ≤ acc + b.count
    · simp [h, classWidth]
    · simp only [h, if_false]
      exact ih (acc + b.count)

lemma map_rating_mkCumulativeGo :
    ∀ (dist : List RatingBucket) (acc : ℚ),
      (mkCumulativeGo acc dist).map CumBucket.rating = dist.map RatingBucket.rating
  | [], _ => rfl
  | b :: rest, acc => by
    rw [mkCumulativeGo, List.map_cons, List.map_cons,
      map_rating_mkCumulativeGo rest (acc + b.count)]

lemma getLast?_mkCumulativeGo (acc : ℚ) (dist : List RatingBucket) :
    ((mkCumulativeGo acc dist).getLast?).map CumBucket.rating =
      (dist.getLast?).map RatingBucket.rating := by
  rw [← List.getLast?_map, ← List.getLast?_map,
    map_rating_mkCumulativeGo dist acc]

/-- The example buckets `[(1000,10),(1025,20),(1050,10)]`. -/
def exBuckets : List RatingBucket :=
  [{ rating := 1000, count := 10 }, { rating := 1025, count := 20 },
   { rating := 1050, count := 10 }]

/-- C6: the quartile computed over the cumulative array coincides with the
spec's prefix-sum scan (first bucket whose cumulative count reaches the
position, linearly interpolated with bin width 25, bucket start when the
count is 0, last bucket's start when the scan is exhausted); the weighted
mean is `Σ((start + 12.5)·count) / Σ count`; and on the example buckets
the total is 40, the quartile at position 10 is 1025, and the mean is
1037.5. -/
theorem quartile_mean_spec :
    (∀ (dist : List RatingBucket) (minRating p : ℚ),
      computeQuartile (cumulativeData dist) minRating p = quantileSpec dist minRating p) ∧
    (∀ dist : List RatingBucket,
      chartMeanRating dist =
        ((dist.map (fun d => (d.rating + 25/2) * d.count)).sum) /
          ((dist.map RatingBucket.count).sum)) ∧
    totalPlayers exBuckets = 40 ∧
    computeQuartile (cumulativeData exBuckets) 1500 10 = 1025 ∧
    chartMeanRating exBuckets = 2075/2 := by
  have hquart : ∀ (dist : List RatingBucket) (minRating p : ℚ),
      computeQuartile (cumulativeData dist) minRating p = quantileSpec dist minRating p := by
    intro dist minRating p
    rw [computeQuartile, quantileSpec, cumulativeData,
      computeQuartileGo_eq_spec p dist 0, getLast?_mkCumulativeGo]
    cases quantileSpecGo p 0 dist <;> rfl
  have hsum : ∀ (dist : List RatingBucket) (a : ℚ),
      dist.foldl (fun sum d => sum + d.count) a = a + (dist.map RatingBucket.count).sum := by
    intro dist
    induction dist with
    | nil => intro a; simp
    | cons b rest ih => intro a; rw [List.foldl_cons, ih]; simp; ring
  have hwsum : ∀ (dist : List RatingBucket) (a : ℚ),
      dist.foldl (fun sum d => sum + (d.rating + classWidth / 2) * d.count) a =
        a + (dist.map (fun d => (d.rating + 25/2) * d.count)).sum := by
    intro dist
    induction dist with
    | nil => intro a; simp
    | cons b rest ih => intro a; rw [List.foldl_cons, ih]; simp [classWidth]; ring
  have hmean : ∀ dist : List RatingBucket,
      chartMeanRating dist =
        ((dist.map (fun d => (d.rating + 25/2) * d.count)).sum) /
          ((dist.map RatingBucket.count).sum) := by
    intro dist
    rw [chartMeanRating, totalPlayers, hsum dist 0, hwsum dist 0]
    norm_num
  refine ⟨hquart, hmean, ?_, ?_, ?_⟩
  · norm_num [totalPlayers, exBuckets]
  · rw [hquart]
    norm_num [quantileSpec, quantileSpecGo, exBuckets]
  · rw [hmean]
    norm_num [exBuckets]

/-! ### Hidden-triple detector
(`hiddenTriplesMap` in `src/pages/HeroDetail.tsx` lines 588-646). -/

/-- One row of the ability-pairs API payload (ids pre-sorted upstream,
`abilityIdOne < abilityIdTwo`). -/
structure ApiPair where
  abilityIdOne : Int
  abilityIdTwo : Int
  numPicks : ℚ
  wins : ℚ
  winrate : ℚ
deriving Repr, DecidableEq

/-- One row of the ability-triplets API payload. -/
structure ApiTriplet where
  abilityIdOne : Int
  abilityIdTwo : Int
  abilityIdThree : Int
  numPicks : ℚ
  winrate : ℚ
deriving Repr, DecidableEq

/-- JS `Map.set` semantics on an association list keyed by id pairs. -/
def mapSet (m : List ((Int × Int) × ℚ)) (k : Int × Int) (v : ℚ) :
    List ((Int × Int) × ℚ) :=
  if m.any (fun e => e.1 == k) then
    m.map (fun e => if e.1 == k then (k, v) else e)
  else m ++ [(k, v)]

/-- JS `Map.get` semantics (`undefined` on a missing key). -/
def mapGet (m : List ((Int × Int) × ℚ)) (k : Int × Int) : Option ℚ :=
  (m.find? (fun e => e.1 == k)).map Prod.snd

/-- The `pairPicksMap` memo: `numPicks` keyed by the (already sorted) id
pair.  The source keys a `Map` by the string `` `${idOne}-${idTwo}` ``,
which is in bijection with the id pair itself. -/
def pairPicksMap (pairs : List ApiPair) : List ((Int × Int) × ℚ) :=
  pairs.foldl (fun m p => mapSet m (p.abilityIdOne, p.abilityIdTwo) p.numPicks) []

/-- One accumulated hidden-triple entry (`HiddenTriple` interface):
`winrateShift` is left 0 at detection time and recomputed in `statsData`. -/
structure HiddenTriple where
  abilityId : Int
  abilityName : String
  shortName : String
  isUltimate : Bool
  isHeroAbility : Bool
  heroId : Option Int
  heroPicture : Option String
  ownerHeroId : Option Int
  numPicks : ℚ
  winrate : ℚ
  winrateShift : ℚ
deriving Repr, DecidableEq

/-- The entry pushed for a flagged hidden companion: the hidden id's
resolved identity plus the triplet's pick count and win rate (scaled to a
percentage). -/
def mkHiddenEntry (env : Env) (hiddenId : Int) (tripletPicks winrate : ℚ) :
    HiddenTriple :=
  let info := resolveAbilityInfo env hiddenId
  { abilityId := info.abilityId
    abilityName := info.abilityName
    shortName := info.shortName
    isUltimate := info.isUltimate
    isHeroAbility := info.isHeroAbility
    heroId := info.heroId
    heroPicture := info.heroPicture
    ownerHeroId := info.ownerHeroId
    numPicks := tripletPicks
    winrate := winrate * 100
    winrateShift := 0 }

/-- The overlap test: any two of the three resolved `ownerHeroId`s are
non-null and equal (`hero1 != null && hero1 === hero2`, etc.). -/
def anyTwoShareHero (env : Env) (id1 id2 idHidden : Int) : Bool :=
  let hero1 := (resolveAbilityInfo env id1).ownerHeroId
  let hero2 := (resolveAbilityInfo env id2).ownerHeroId
  let heroHidden := (resolveAbilityInfo env idHidden).ownerHeroId
  (hero1.isSome && hero1 == hero2) ||
    (hero1.isSome && hero1 == heroHidden) ||
    (hero2.isSome && hero2 == heroHidden)

/-- The three implied pairs of a triplet, each with its hidden companion:
`[pairId1, pairId2, hiddenAbilityId]`. -/
def impliedPairs (a b c : Int) : List (Int × Int × Int) :=
  [(a, b, c), (a, c, b), (b, c, a)]

/-- The inner loop body: skip an implied pair absent from the pick-count
lookup (`continue`); otherwise flag it when the triplet's pick count
reaches `thresholdFactor × pairPicks`, where `thresholdFactor` is 0.60
(`3/5`) under hero overlap and 0.0001 (`1/10000`) otherwise. -/
def considerPair (env : Env) (ppm : List ((Int × Int) × ℚ))
    (tripletPicks winrate : ℚ) (pr : Int × Int × Int) :
    Option ((Int × Int) × HiddenTriple) :=
  match mapGet ppm (pr.1, pr.2.1) with
  | none => none
  | some pairPicks =>
    if (if anyTwoShareHero env pr.1 pr.2.1 pr.2.2 then (3/5 : ℚ) else 1/10000) *
        pairPicks ≤ tripletPicks then
      some ((pr.1, pr.2.1), mkHiddenEntry env pr.2.2 tripletPicks winrate)
    else none

/-- The keyed entries one triplet pushes into the map, in inner-loop
order. -/
def tripletContribution (env : Env) (ppm : List ((Int × Int) × ℚ))
    (t : ApiTriplet) : List ((Int × Int) × HiddenTriple) :=
  (impliedPairs t.abilityIdOne t.abilityIdTwo t.abilityIdThree).filterMap
    (considerPair env ppm t.numPicks t.winrate)

/-- Embedding of the `hiddenTriplesMap` memo, read at a key: the per-key
accumulated entry list (`map.get(pairKey) ?? []`), empty when
`pairPicksMap.size === 0`.  Pushes accumulate per key in processing order,
which is exactly the concatenation of the per-triplet contributions
restricted to that key. -/
def hiddenTriplesMap (env : Env) (triplets : List ApiTriplet)
    (ppm : List ((Int × Int) × ℚ)) (k : Int × Int) : List HiddenTriple :=
  if ppm.isEmpty then []
  else
    (((triplets.map (tripletContribution env ppm)).flatten.filter
      (fun e => e.1 == k)).map Prod.snd)

lemma mkHiddenEntry_abilityId (env : Env) (hiddenId : Int) (tp w : ℚ) :
    (mkHiddenEntry env hiddenId tp w).abilityId = hiddenId := rfl

/-- C1: for a triplet and each of its three implied pairs present in the
pair pick-count lookup, this triplet emits a hidden-triple entry for that
pair if and only if its pick count reaches the threshold
`(0.60 if any two of the three resolved ids share an owning hero else
0.0001) × pairPicks`; every emitted entry lands in the accumulated map for
its sorted pair key. -/
theorem hiddenTriple_threshold (env : Env) (ppm : List ((Int × Int) × ℚ))
    (triplets : List ApiTriplet) (t : ApiTriplet) (p1 p2 hid : Int) (pairPicks : ℚ)
    (hmem : (p1, p2, hid) ∈ impliedPairs t.abilityIdOne t.abilityIdTwo t.abilityIdThree)
    (hpp : mapGet ppm (p1, p2) = some pairPicks) :
    ((((p1, p2), mkHiddenEntry env hid t.numPicks t.winrate) ∈
        tripletContribution env ppm t) ↔
      (if anyTwoShareHero env p1 p2 hid then (3/5 : ℚ) else 1/10000) * pairPicks ≤
        t.numPicks) ∧
    (t ∈ triplets → ppm ≠ [] →
      (if anyTwoShareHero env p1 p2 hid then (3/5 : ℚ) else 1/10000) * pairPicks ≤
        t.numPicks →
      mkHiddenEntry env hid t.numPicks t.winrate ∈
        hiddenTriplesMap env triplets ppm (p1, p2)) := by
  have hiff : (((p1, p2), mkHiddenEntry env hid t.numPicks t.winrate) ∈
        tripletContribution env ppm t) ↔
      (if anyTwoShareHero env p1 p2 hid then (3/5 : ℚ) else 1/10000) * pairPicks ≤
        t.numPicks := by
    rw [tripletContribution, List.mem_filterMap]
    constructor
    · rintro ⟨⟨x, y, z⟩, hpr, hf⟩
      rw [considerPair] at hf
      cases hg : mapGet ppm (x, y) with
      | none => rw [hg] at hf; simp at hf
      | some pp =>
        rw [hg] at hf
        simp only at hf
        by_cases hcnd : (if anyTwoShareHero env x y z then (3/5 : ℚ) else 1/10000) *
            pp ≤ t.numPicks
        · rw [if_pos hcnd] at hf
          have hkey : ((x, y), mkHiddenEntry env z t.numPicks t.winrate) =
              ((p1, p2), mkHiddenEntry env hid t.numPicks t.winrate) :=
            Option.some.inj hf
          have hx : x = p1 := congrArg (fun q => q.1.1) hkey
          have hy : y = p2 := congrArg (fun q => q.1.2) hkey
          have hz : z = hid := by
            have := congrArg (fun q => q.2.abilityId) hkey
            simpa [mkHiddenEntry_abilityId] using this
          subst hx; subst hy; subst hz
          have hppeq : pp = pairPicks := by
            rw [hg] at hpp; exact Option.some.inj hpp
          rw [hppeq] at hcnd
          exact hcnd
        · rw [if_neg hcnd] at hf
          simp at hf
    · intro hcond
      refine ⟨(p1, p2, hid), hmem, ?_⟩
      rw [considerPair, hpp]
      simp only
      rw [if_pos hcond]
  refine ⟨hiff, fun ht hne hcond => ?_⟩
  have hmem' : ((p1, p2), mkHiddenEntry env hid t.numPicks t.winrate) ∈
      tripletContribution env ppm t := hiff.mpr hcond
  rw [hiddenTriplesMap, if_neg (by simpa using hne)]
  refine List.mem_map.mpr ⟨((p1, p2), mkHiddenEntry env hid t.numPicks t.winrate), ?_, rfl⟩
  refine List.mem_filter.mpr ⟨?_, by simp⟩
  exact List.mem_flatten.mpr
    ⟨tripletContribution env ppm t, List.mem_map_of_mem _ ht, hmem'⟩

/-- Environment in which abilities 1 and 2 are both owned by hero 7
(hero overlap inside the pair). -/
def envOverlap : Env where
  getAbilityById := fun id =>
    if id == 1 then
      some { englishName := "A", shortName := "a", isUltimate := some false,
             ownerHeroId := some 7 }
    else if id == 2 then
      some { englishName := "B", shortName := "b", isUltimate := some false,
             ownerHeroId := some 7 }
    else none
  getHeroById := fun _ => none

/-- The spec's asymmetry example: pair (1,2) with 1000 picks, triplet
(1,2,3) with a single pick. -/
def exTriplet : ApiTriplet :=
  { abilityIdOne := 1, abilityIdTwo := 2, abilityIdThree := 3,
    numPicks := 1, winrate := 1/2 }

/-- The pick-count lookup holding only the pair (1,2) at 1000 picks. -/
def exPpm : List ((Int × Int) × ℚ) := [((1, 2), 1000)]

/-- C1 witness: with no hero overlap a 1-pick triplet against a 1000-pick
pair is flagged (`1 ≥ 0.0001·1000`); with abilities 1 and 2 sharing hero 7
the same triplet is not flagged (`1 < 0.60·1000`). -/
theorem hiddenTriple_threshold_witness :
    (((1, 2), mkHiddenEntry envEmpty 3 1 (1/2)) ∈
      tripletContribution envEmpty exPpm exTriplet) ∧
    (mkHiddenEntry envEmpty 3 1 (1/2) ∈
      hiddenTriplesMap envEmpty [exTriplet] exPpm (1, 2)) ∧
    ¬(((1, 2), mkHiddenEntry envOverlap 3 1 (1/2)) ∈
      tripletContribution envOverlap exPpm exTriplet) := by
  have hshareE : anyTwoShareHero envEmpty 1 2 3 = false := rfl
  have hshareO : anyTwoShareHero envOverlap 1 2 3 = true := rfl
  refine ⟨?_, ?_, ?_⟩
  · exact (hiddenTriple_threshold envEmpty exPpm [] exTriplet 1 2 3 1000
      (by decide) rfl).1.mpr (by rw [hshareE]; norm_num [exTriplet])
  · exact (hiddenTriple_threshold envEmpty exPpm [exTriplet] exTriplet 1 2 3 1000
      (by decide) rfl).2 (List.mem_singleton.mpr rfl) (by decide)
      (by rw [hshareE]; norm_num [exTriplet])
  · intro hmem
    have := (hiddenTriple_threshold envOverlap exPpm [] exTriplet 1 2 3 1000
      (by decide) rfl).1.mp hmem
    rw [hshareO] at this
    norm_num [exTriplet] at this

/-! ### Pair tables: `statsData` (ability-pairs page, lines 649-721) and
`pairsData` (ability-detail page, lines 289-329). -/

/-- One transformed row of the ability-pairs table.  `key` models the
string `` `${idOne}-${idTwo}` ``. -/
structure AbilityPairRow where
  key : Int × Int
  abilityIdOne : Int
  abilityNameOne : String
  shortNameOne : String
  isUltimateOne : Bool
  isHeroAbilityOne : Bool
  heroIdOne : Option Int
  heroPictureOne : Option String
  ownerHeroIdOne : Option Int
  winRateOne : Option ℚ
  abilityIdTwo : Int
  abilityNameTwo : String
  shortNameTwo : String
  isUltimateTwo : Bool
  isHeroAbilityTwo : Bool
  heroIdTwo : Option Int
  heroPictureTwo : Option String
  ownerHeroIdTwo : Option Int
  winRateTwo : Option ℚ
  picks : ℚ
  wins : ℚ
  pairWinRate : ℚ
  synergy : Option ℝ
  hiddenTriples : List HiddenTriple

/-- Embedding of the `statsData` memo of the ability-pairs page: map each
API pair through resolution, win-rate lookup, synergy, and hidden-triple
post-processing (shift recomputation, optional same-hero filter, sort by
shift descending — JS `Array.sort` is stable, matching `mergeSort`); then
drop rows under 50 picks and, when the toggle is on, same-hero pairs. -/
noncomputable def statsData (env : Env) (excludeSameHero : Bool)
    (pairs : List ApiPair) (abilityWinRateMap : Int → Option ℚ)
    (hiddenTriplesLookup : (Int × Int) → List HiddenTriple) :
    List AbilityPairRow :=
  ((pairs.map (fun pair =>
    let one := resolveAbilityInfo env pair.abilityIdOne
    let two := resolveAbilityInfo env pair.abilityIdTwo
    let winRateOne := abilityWinRateMap pair.abilityIdOne
    let winRateTwo := abilityWinRateMap pair.abilityIdTwo
    let pairWinRate := pair.winrate * 100
    let synergy := synergyOf winRateOne winRateTwo pairWinRate
    let rawHiddenTriples := hiddenTriplesLookup (pair.abilityIdOne, pair.abilityIdTwo)
    let hiddenTriples :=
      ((rawHiddenTriples.map (fun triple =>
          { triple with winrateShift := triple.winrate - pairWinRate })).filter
        (fun triple =>
          if !excludeSameHero then true
          else if triple.ownerHeroId == none then true
          else if one.ownerHeroId != none && triple.ownerHeroId == one.ownerHeroId then
            false
          else if two.ownerHeroId != none && triple.ownerHeroId == two.ownerHeroId then
            false
          else true)).mergeSort
        (fun a b => b.winrateShift ≤ a.winrateShift)
    { key := (pair.abilityIdOne, pair.abilityIdTwo)
      abilityIdOne := one.abilityId
      abilityNameOne := one.abilityName
      shortNameOne := one.shortName
      isUltimateOne := one.isUltimate
      isHeroAbilityOne := one.isHeroAbility
      heroIdOne := one.heroId
      heroPictureOne := one.heroPicture
      ownerHeroIdOne := one.ownerHeroId
      winRateOne := winRateOne
      abilityIdTwo := two.abilityId
      abilityNameTwo := two.abilityName
      shortNameTwo := two.shortName
      isUltimateTwo := two.isUltimate
      isHeroAbilityTwo := two.isHeroAbility
      heroIdTwo := two.heroId
      heroPictureTwo := two.heroPicture
      ownerHeroIdTwo := two.ownerHeroId
      winRateTwo := winRateTwo
      picks := pair.numPicks
      wins := pair.wins
      pairWinRate := pairWinRate
      synergy := synergy
      hiddenTriples := hiddenTriples })).filter
    (fun row => 50 ≤ row.picks)).filter
    (fun row =>
      if !excludeSameHero then true
      else if row.ownerHeroIdOne == none || row.ownerHeroIdTwo == none then true
      else row.ownerHeroIdOne != row.ownerHeroIdTwo)

/-- One row of the ability-detail page's pair table. -/
structure PairRow where
  key : Int × Int
  otherAbilityId : Int
  otherAbilityName : String
  otherShortName : String
  otherIsUltimate : Bool
  otherIsHeroAbility : Bool
  otherHeroId : Option Int
  otherHeroPicture : Option String
  otherWinRate : Option ℚ
  picks : ℚ
  wins : ℚ
  pairWinRate : ℚ
  synergy : Option ℝ

/-- Embedding of the `pairsData` memo of the ability-detail page: keep the
pairs involving the current ability, resolve the other member, compute
synergy, and drop rows under 30 picks. -/
noncomputable def pairsData (env : Env) (currentAbilityId : Int)
    (pairs : List ApiPair) (abilityWinRateMap : Int → Option ℚ) : List PairRow :=
  let currentWinRate := abilityWinRateMap currentAbilityId
  ((pairs.filter (fun pair =>
      pair.abilityIdOne == currentAbilityId || pair.abilityIdTwo == currentAbilityId)).map
    (fun pair =>
      let isFirst := pair.abilityIdOne == currentAbilityId
      let otherId := if isFirst then pair.abilityIdTwo else pair.abilityIdOne
      let other := resolveAbilityInfo env otherId
      let otherWinRate := abilityWinRateMap otherId
      let pairWinRate := pair.winrate * 100
      let synergy := synergyOf currentWinRate otherWinRate pairWinRate
      { key := (pair.abilityIdOne, pair.abilityIdTwo)
        otherAbilityId := other.abilityId
        otherAbilityName := other.abilityName
        otherShortName := other.shortName
        otherIsUltimate := other.isUltimate
        otherIsHeroAbility := other.isHeroAbility
        otherHeroId := other.heroId
        otherHeroPicture := other.heroPicture
        otherWinRate := otherWinRate
        picks := pair.numPicks
        wins := pair.wins
        pairWinRate := pairWinRate
        synergy := synergy })).filter
    (fun row => 30 ≤ row.picks)

/-- C10: every row the ability-pairs transform emits has at least 50
picks, and every row the ability-detail pair table emits has at least 30
picks — rows under the cutoff are dropped after their synergy was
computed. -/
theorem minPicks_row_filters (env : Env) (excludeSameHero : Bool)
    (pairs : List ApiPair) (abilityWinRateMap : Int → Option ℚ)
    (hiddenTriplesLookup : (Int × Int) → List HiddenTriple)
    (currentAbilityId : Int) :
    ((statsData env excludeSameHero pairs abilityWinRateMap
        hiddenTriplesLookup).all (fun row => 50 ≤ row.picks)) = true ∧
    ((pairsData env currentAbilityId pairs abilityWinRateMap).all
        (fun row => 30 ≤ row.picks)) = true := by
  constructor
  · rw [List.all_eq_true]
    intro row hrow
    rw [statsData] at hrow
    have h1 := (List.mem_filter.mp hrow).1
    exact (List.mem_filter.mp h1).2
  · rw [List.all_eq_true]
    intro row hrow
    rw [pairsData] at hrow
    simp only at hrow
    exact (List.mem_filter.mp hrow).2

end Windrun
